import Mathlib

/-!
Verification development for the turkish-airlines-review-scraper repository.

The repository contains three Python scripts:
  * trustindex_scraper.py  (namespace TI1 below): Selenium-driven scraper that
    repeatedly clicks a More button, parses review divs, and deduplicates by
    the data-id attribute.
  * trustindex_scraper2.py (namespace TI2 below): a hardened variant of the same
    loop with a DOM-count wait and date normalization.
  * trustpilot_scraper.py  (namespace TP below): a requests-based scraper that
    walks numbered pages of a JSON payload and deduplicates by review id.

The embedding models Python dicts as association lists of string keys and a
small dynamic value type, BeautifulSoup elements as records of the fields the
parsers read, and the browser or HTTP environment as explicit outcome data fed
to the loop definitions.  Exceptions thrown by the environment are modelled as
error outcomes; the Python code catches them and breaks out of its loop, which
the embedding mirrors by returning the accumulator at that point.
-/

set_option linter.unusedVariables false

/-- Dynamic value stored in a review dict: Python None, str, int or bool. -/
inductive Value where
  | vnone  : Value
  | vstr   : String → Value
  | vnat   : Nat → Value
  | vbool  : Bool → Value
  deriving DecidableEq, Repr

/-- A Python dict with string keys, in insertion order. -/
abbrev Record := List (String × Value)

/-- Model of dict lookup: the value at the first entry with the given key. -/
def getVal (r : Record) (k : String) : Option Value :=
  (r.find? (fun p => p.1 == k)).map (fun p => p.2)

/-- Model of dict.get with a default. -/
def getValD (r : Record) (k : String) (v : Value) : Value :=
  (getVal r k).getD v

/-- Lookup defaulting to None (used for keys the code sets unconditionally). -/
def getValOrNone (r : Record) (k : String) : Value :=
  getValD r k Value.vnone

/-- The keys of a record, in insertion order. -/
def keysOf (r : Record) : List String :=
  r.map (fun p => p.1)

/-- Model of dict.pop(k, None): the record without any entry for key k. -/
def popKey (r : Record) (k : String) : Record :=
  r.filter (fun p => p.1 != k)

/-- Wrap an optional string the way the Python code stores it in a dict. -/
def optValue : Option String → Value
  | none => Value.vnone
  | some s => Value.vstr s

/-- Wrap an optional integer the way the Python code stores it in a dict. -/
def optNatValue : Option Nat → Value
  | none => Value.vnone
  | some n => Value.vnat n

/-- Python truthiness of a dict value used as an id: a non-empty string is
truthy; None and the empty string are falsy (ints and bools do not occur as
ids in these scripts). -/
def truthyStr : Value → Option String
  | Value.vstr s => if s = "" then none else some s
  | _ => none

/-- First-occurrence deduplication of a list relative to a seen set: keeps each
element not in `seen` at its first occurrence, in order.  This is the reference
function the dedup-by-id loops are proved to implement. -/
def dedupFirst {α : Type} [DecidableEq α] : List α → List α → List α
  | [], _ => []
  | x :: xs, seen => if x ∈ seen then dedupFirst xs seen else x :: dedupFirst xs (x :: seen)

/-! ### String operations

Structural models of the Python string operations the scripts use
(str.replace, str.split, str.strip, str.startswith, int()), written over
character lists so that every definition evaluates by kernel reduction. -/

/-- Whether the first list is a prefix of the second. -/
def isPrefixList : List Char → List Char → Bool
  | [], _ => true
  | _ :: _, [] => false
  | p :: ps, c :: cs => p = c && isPrefixList ps cs

/-- Replace every non-overlapping leftmost occurrence of pat by rep; the fuel
argument is an upper bound on the number of characters consumed. -/
def replaceAux (pat rep : List Char) : Nat → List Char → List Char
  | 0, l => l
  | _ + 1, [] => []
  | fuel + 1, c :: cs =>
    if isPrefixList pat (c :: cs) then
      rep ++ replaceAux pat rep fuel (List.drop (pat.length - 1) cs)
    else c :: replaceAux pat rep fuel cs

/-- Model of Python str.replace (the scripts never use an empty pattern). -/
def pyReplace (s pat rep : String) : String :=
  if pat.data.isEmpty then s
  else String.mk (replaceAux pat.data rep.data s.data.length s.data)

/-- Split on a separator character, keeping empty parts, as str.split does. -/
def splitOnCharAux (sep : Char) : List Char → List Char → List (List Char)
  | [], cur => [cur.reverse]
  | c :: cs, cur =>
    if c = sep then cur.reverse :: splitOnCharAux sep cs []
    else splitOnCharAux sep cs (c :: cur)

/-- Model of splitting a Python string on a dot. -/
def pySplitDots (s : String) : List String :=
  (splitOnCharAux '.' s.data []).map String.mk

/-- Model of int() on a string of decimal digits (None when it would raise). -/
def digitsToNat? (l : List Char) : Option Nat :=
  if l.isEmpty then none
  else if l.all Char.isDigit then
    some (l.foldl (fun acc c => acc * 10 + (c.toNat - 48)) 0)
  else none

/-- Whitespace for the strip model (the characters str.strip removes that can
occur in scraped text). -/
def isSpaceChar (c : Char) : Bool :=
  c = ' ' || c = '\t' || c = '\n' || c = '\r'

/-- Model of Python str.strip(). -/
def pyStrip (s : String) : String :=
  String.mk (((s.data.dropWhile isSpaceChar).reverse.dropWhile isSpaceChar).reverse)

/-- Model of Python str.startswith. -/
def pyStartsWith (s pre : String) : Bool :=
  isPrefixList pre.data s.data

/-! ### Date handling

Models of the pieces of Python's datetime library the scrapers use:
`datetime.strptime(s, \"%Y.%m.%d\")`, `datetime.fromisoformat`, and the
`strftime` output formats `%Y-%m-%d` and `%Y-%m-%d %H:%M:%S`. -/

/-- Gregorian leap-year rule, as in Python's datetime. -/
def isLeapYear (y : Nat) : Bool :=
  (y % 4 == 0 && y % 100 != 0) || y % 400 == 0

/-- Number of days in a month, as validated by Python's datetime constructor. -/
def daysInMonth (y m : Nat) : Nat :=
  if m = 2 then (if isLeapYear y then 29 else 28)
  else if m = 4 ∨ m = 6 ∨ m = 9 ∨ m = 11 then 30 else 31

/-- Model of datetime.strptime(s, with format year dot month dot day):
CPython matches the year as exactly four digits, month and day as one or two
digits, converts with int(), and the datetime constructor validates the
calendar date (year at least 1).  Returns (year, month, day). -/
def strptimeYmdDots (s : String) : Option (Nat × Nat × Nat) :=
  match pySplitDots s with
  | [ys, ms, ds] =>
    if ys.length = 4 ∧ ms.length ≤ 2 ∧ ds.length ≤ 2 then
      match digitsToNat? ys.data, digitsToNat? ms.data, digitsToNat? ds.data with
      | some y, some m, some d =>
        if 1 ≤ y ∧ 1 ≤ m ∧ m ≤ 12 ∧ 1 ≤ d ∧ d ≤ daysInMonth y m then
          some (y, m, d)
        else none
      | _, _, _ => none
    else none
  | _ => none

/-- Zero-pad a number to two digits, as strftime does for month and day. -/
def pad2 (n : Nat) : String :=
  if n < 10 then "0" ++ toString n else toString n

/-- Zero-pad a number to four digits, as strftime does for the year. -/
def pad4 (n : Nat) : String :=
  if n < 10 then "000" ++ toString n
  else if n < 100 then "00" ++ toString n
  else if n < 1000 then "0" ++ toString n
  else toString n

/-- Model of strftime with format year-month-day. -/
def fmtYmd (ymd : Nat × Nat × Nat) : String :=
  pad4 ymd.1 ++ "-" ++ pad2 ymd.2.1 ++ "-" ++ pad2 ymd.2.2

/-- Naive datetime value produced by the fromisoformat model. -/
structure PyDateTime where
  year : Nat
  month : Nat
  day : Nat
  hour : Nat
  minute : Nat
  second : Nat
  deriving DecidableEq, Repr

/-- Read exactly n decimal digits off the front of a character list. -/
def readDigits : Nat → Nat → List Char → Option (Nat × List Char)
  | 0, acc, cs => some (acc, cs)
  | n + 1, acc, c :: cs =>
    if c.isDigit then readDigits n (acc * 10 + (c.toNat - 48)) cs else none
  | _ + 1, _, [] => none

/-- Consume one expected character. -/
def expectChar (c : Char) : List Char → Option (List Char)
  | x :: xs => if x = c then some xs else none
  | [] => none

/-- Consume an optional fractional-seconds part: a dot followed by exactly
three or six digits, as accepted by datetime.fromisoformat. -/
def parseOptFraction : List Char → Option (List Char)
  | '.' :: cs =>
    let run := cs.takeWhile Char.isDigit
    if run.length = 3 ∨ run.length = 6 then some (cs.drop run.length) else none
  | cs => some cs

/-- Consume the hour:minute part of a timezone offset and validate it. -/
def parseOffsetTail (cs : List Char) : Option (List Char) := do
  let (oh, cs) ← readDigits 2 0 cs
  let cs ← expectChar ':' cs
  let (om, cs) ← readDigits 2 0 cs
  if oh < 24 ∧ om < 60 then pure cs else none

/-- Consume an optional timezone offset of the form sign, two digits, colon,
two digits (the shape produced by replacing Z with +00:00). -/
def parseOffset : List Char → Option (List Char)
  | [] => some []
  | '+' :: cs => parseOffsetTail cs
  | '-' :: cs => parseOffsetTail cs
  | _ => none

/-- Consume hour [colon minute [colon second [fraction]]]. -/
def parseHMS (cs : List Char) : Option (Nat × Nat × Nat × List Char) := do
  let (hh, cs) ← readDigits 2 0 cs
  match cs with
  | ':' :: cs2 => do
    let (mi, cs3) ← readDigits 2 0 cs2
    match cs3 with
    | ':' :: cs4 => do
      let (ss, cs5) ← readDigits 2 0 cs4
      let cs6 ← parseOptFraction cs5
      pure (hh, mi, ss, cs6)
    | _ => pure (hh, mi, 0, cs3)
  | _ => pure (hh, 0, 0, cs)

/-- Model of datetime.fromisoformat restricted to the shapes these scripts can
feed it: a date year-month-day, optionally followed by a one-character
separator, a time hour[:minute[:second[.fraction]]], and an optional
plus-or-minus hour:minute offset.  Field ranges and the calendar date are
validated as the datetime constructor does. -/
def fromisoformat (s : String) : Option PyDateTime := do
  let cs := s.data
  let (y, cs) ← readDigits 4 0 cs
  let cs ← expectChar '-' cs
  let (m, cs) ← readDigits 2 0 cs
  let cs ← expectChar '-' cs
  let (d, cs) ← readDigits 2 0 cs
  if 1 ≤ y ∧ 1 ≤ m ∧ m ≤ 12 ∧ 1 ≤ d ∧ d ≤ daysInMonth y m then
    match cs with
    | [] => pure (PyDateTime.mk y m d 0 0 0)
    | _sep :: cs => do
      let (hh, mi, ss, cs) ← parseHMS cs
      let cs ← parseOffset cs
      if hh ≤ 23 ∧ mi ≤ 59 ∧ ss ≤ 59 ∧ cs = [] then
        pure (PyDateTime.mk y m d hh mi ss)
      else none
  else none

/-- Model of strftime with format year-month-day hour:minute:second. -/
def fmtDateTime (dt : PyDateTime) : String :=
  fmtYmd (dt.year, dt.month, dt.day) ++ " " ++
    pad2 dt.hour ++ ":" ++ pad2 dt.minute ++ ":" ++ pad2 dt.second

/-- Model of strftime with format year-month-day on a datetime value. -/
def fmtDate (dt : PyDateTime) : String :=
  fmtYmd (dt.year, dt.month, dt.day)

/-- Model of html.unescape restricted to the four common named entities; the
scripts never branch on its output, so this stands in for the full table. -/
def htmlUnescape (s : String) : String :=
  pyReplace (pyReplace (pyReplace (pyReplace s "&lt;" "<") "&gt;" ">") "&quot;" "\"") "&amp;" "&"

/-! ### Trustindex scrapers: shared element and environment model -/

/-- Abstraction of a BeautifulSoup review div, holding exactly the pieces the
parsers read: the data-id attribute, the stripped text of the ti-name and
ti-date divs (none when the div is absent and find returns None), the number
of filled-star spans inside a ti-stars div (none when that div is absent), the
text of the ti-review-content div after br tags become newlines, and the class
attribute list (empty when the attribute is missing). -/
structure ReviewDiv where
  dataId : Option String
  nameText : Option String
  dateText : Option String
  starsFilled : Option Nat
  contentText : Option String
  classes : List String
  deriving DecidableEq, Repr

/-- Model of the generator expression both Trustindex parsers use for
source_platform: the first class starting with source-, with that marker
removed (str.replace removes every occurrence), defaulting to Unknown. -/
def sourceFromClasses (classes : List String) : String :=
  match classes.find? (fun s => pyStartsWith s "source-") with
  | some s => pyReplace s "source-" ""
  | none => "Unknown"

/-- Outcome of one iteration of the More-button loop, as seen from the code:
err models any exception raised while locating, scrolling to, or clicking the
button (TimeoutException, NoSuchElementException, or anything else — every
branch breaks out of the loop); ok carries the full list of review divs the
page shows after the click. -/
inductive ClickOutcome where
  | err : ClickOutcome
  | ok : List ReviewDiv → ClickOutcome
  deriving Repr

/-- Environment of one Selenium run: whether setup or the initial load raises
(caught by the outer try, leaving the accumulator empty), the review divs of
the initial page, and the outcome of each successive click attempt.  When the
list of outcomes is exhausted the wait for the button times out, which behaves
like err. -/
structure TiEnv where
  setupFails : Bool
  initialDivs : List ReviewDiv
  clicks : List ClickOutcome

namespace TI1

/-- Embedding of parse_review_div in trustindex_scraper.py: every field falls
back to None (or Unknown for the platform) when its element is missing, and
the dict is built in this key order. -/
def parse_review_div (d : ReviewDiv) : Record :=
  [("review_id", optValue d.dataId),
   ("author", optValue d.nameText),
   ("date", optValue d.dateText),
   ("rating", optNatValue d.starsFilled),
   ("body", optValue d.contentText),
   ("source_platform", Value.vstr (sourceFromClasses d.classes))]

/-- Embedding of the per-pass for-loop of extract_reviews_selenium: parse each
div and append it when the dict is truthy (always), its review_id is truthy,
and the id is not in the seen set.  Returns the seen set, the accumulator, and
the number of records appended in this pass. -/
def processDivs : List ReviewDiv → List String → List Record →
    List String × List Record × Nat
  | [], seen, acc => (seen, acc, 0)
  | d :: ds, seen, acc =>
    let review_data := parse_review_div d
    match truthyStr (getValOrNone review_data "review_id") with
    | some rid =>
      if rid ∈ seen then processDivs ds seen acc
      else
        let r := processDivs ds (rid :: seen) (acc ++ [review_data])
        (r.1, r.2.1, r.2.2 + 1)
    | none => processDivs ds seen acc

/-- The truthy review ids carried by a list of divs, in element order; ghost
data used to state the first-encounter-order property. -/
def candidateIds (divs : List ReviewDiv) : List String :=
  divs.filterMap (fun d => truthyStr (getValOrNone (parse_review_div d) "review_id"))

/-- Embedding of the while-loop of extract_reviews_selenium (fuel is
max_loops minus loop_count).  Returns the accumulator at exit, the number of
times the loop body ran (each run is one More-button click attempt), and the
ghost stream of truthy ids in the order the loop encountered them.  An err
outcome (or running out of scripted outcomes, which stands for the button
wait timing out) breaks; a pass that appends nothing breaks; otherwise
loop_count advances. -/
def clickLoop : List ClickOutcome → Nat → List String → List Record →
    List Record × Nat × List String
  | _, 0, _seen, acc => (acc, 0, [])
  | [], _ + 1, _seen, acc => (acc, 1, [])
  | ClickOutcome.err :: _, _ + 1, _seen, acc => (acc, 1, [])
  | ClickOutcome.ok divs :: rest, fuel + 1, seen, acc =>
    let r := processDivs divs seen acc
    if r.2.2 = 0 then (r.2.1, 1, candidateIds divs)
    else
      let l := clickLoop rest fuel r.1 r.2.1
      (l.1, l.2.1 + 1, candidateIds divs ++ l.2.2)

/-- Embedding of extract_reviews_selenium before the final pop of review_id:
the accumulated records, the number of click attempts, and the ghost stream of
encountered truthy ids across the initial load and every click. -/
def extractCore (env : TiEnv) (max_loops : Nat) :
    List Record × Nat × List String :=
  if env.setupFails then ([], 0, [])
  else
    let r := processDivs env.initialDivs [] []
    let l := clickLoop env.clicks max_loops r.1 r.2.1
    (l.1, l.2.1, candidateIds env.initialDivs ++ l.2.2)

/-- Embedding of extract_reviews_selenium in trustindex_scraper.py: the core
accumulator with the temporary review_id popped from every record. -/
def extract_reviews_selenium (env : TiEnv) (max_loops : Nat) : List Record :=
  (extractCore env max_loops).1.map (fun rv => popKey rv "review_id")

end TI1

namespace TI2

/-- Embedding of parse_review_div in trustindex_scraper2.py: returns None
exactly when data-id is missing or empty; otherwise a dict in this key order,
with the date reformatted to ISO when it parses as year dot month dot day and
stored raw otherwise, and the body passed through html.unescape. -/
def parse_review_div (d : ReviewDiv) : Option Record :=
  match d.dataId with
  | none => none
  | some rid =>
    if rid = "" then none
    else some
      [("review_id", Value.vstr rid),
       ("author", optValue d.nameText),
       ("date",
         match d.dateText with
         | none => Value.vnone
         | some s =>
           match strptimeYmdDots s with
           | some ymd => Value.vstr (fmtYmd ymd)
           | none => Value.vstr s),
       ("rating", optNatValue d.starsFilled),
       ("body",
         match d.contentText with
         | none => Value.vnone
         | some s => Value.vstr (htmlUnescape s)),
       ("source_platform", Value.vstr (sourceFromClasses d.classes))]

/-- Embedding of the per-pass for-loop of extract_reviews_selenium in
trustindex_scraper2.py: parse_review_div may return None, and a record is
appended when it is a dict, its review_id is truthy, and the id is unseen. -/
def processDivs : List ReviewDiv → List String → List Record →
    List String × List Record × Nat
  | [], seen, acc => (seen, acc, 0)
  | d :: ds, seen, acc =>
    match parse_review_div d with
    | some review_data =>
      match truthyStr (getValOrNone review_data "review_id") with
      | some rid =>
        if rid ∈ seen then processDivs ds seen acc
        else
          let r := processDivs ds (rid :: seen) (acc ++ [review_data])
          (r.1, r.2.1, r.2.2 + 1)
      | none => processDivs ds seen acc
    | none => processDivs ds seen acc

/-- Embedding of the while-loop of extract_reviews_selenium in
trustindex_scraper2.py.  domCount is the number of review divs counted before
the click; seen.length is last_known_review_id_count.  An ok outcome whose new
DOM does not grow past domCount models the wait for an increased count timing
out, which breaks; a pass adding no new unique id breaks; err models any
exception in the button interaction, which breaks.  Returns the accumulator
and the number of loop-body runs. -/
def clickLoop : List ClickOutcome → Nat → Nat → List String → List Record →
    List Record × Nat
  | _, 0, _, _seen, acc => (acc, 0)
  | [], _ + 1, _, _seen, acc => (acc, 1)
  | ClickOutcome.err :: _, _ + 1, _, _seen, acc => (acc, 1)
  | ClickOutcome.ok newDom :: rest, fuel + 1, domCount, seen, acc =>
    if newDom.length ≤ domCount then (acc, 1)
    else
      let r := processDivs newDom seen acc
      if r.1.length = seen.length then (r.2.1, 1)
      else
        let l := clickLoop rest fuel newDom.length r.1 r.2.1
        (l.1, l.2 + 1)

/-- Embedding of extract_reviews_selenium in trustindex_scraper2.py before the
final pop: accumulator and number of loop-body runs. -/
def extractCore (env : TiEnv) (max_loops : Nat) : List Record × Nat :=
  if env.setupFails then ([], 0)
  else
    let r := processDivs env.initialDivs [] []
    clickLoop env.clicks max_loops env.initialDivs.length r.1 r.2.1

/-- Embedding of extract_reviews_selenium in trustindex_scraper2.py: the core
accumulator with review_id popped from every record. -/
def extract_reviews_selenium (env : TiEnv) (max_loops : Nat) : List Record :=
  (extractCore env max_loops).1.map (fun rv => popKey rv "review_id")

end TI2

/-! ### Trustpilot scraper model -/

/-- Abstraction of one review JSON object from the Trustpilot __NEXT_DATA__
payload: exactly the fields parse_trustpilot_review_data reads with .get,
where none models an absent key. -/
structure TPReviewJson where
  id : Option String
  displayName : Option String
  consumerId : Option String
  numberOfReviews : Option Nat
  countryCode : Option String
  publishedDate : Option String
  experiencedDate : Option String
  rating : Option Nat
  title : Option String
  text : Option String
  language : Option String
  likes : Option Nat
  isVerified : Option Bool
  reviewSourceName : Option String
  deriving Repr

/-- The parts of one page's __NEXT_DATA__ payload the loop reads: the reviews
array and the totalPages pagination entry (none models the lookup raising
KeyError or TypeError). -/
structure TPPage where
  reviews : List TPReviewJson
  totalPages : Option Nat
  deriving Repr

/-- Outcome of requesting one page: fetchErr models requests raising
RequestException (or raise_for_status firing); noScript a page without the
__NEXT_DATA__ script tag; jsonErr a JSONDecodeError; procErr any other
exception while processing the page.  Every non-ok outcome breaks the loop. -/
inductive PageOutcome where
  | fetchErr : PageOutcome
  | noScript : PageOutcome
  | jsonErr : PageOutcome
  | procErr : PageOutcome
  | ok : TPPage → PageOutcome
  deriving Repr

/-- True on every outcome the code handles by breaking out of the loop. -/
def isErrOutcome : PageOutcome → Bool
  | PageOutcome.ok _ => false
  | _ => true

namespace TP

/-- Model of the BeautifulSoup text extraction applied to a review body:
br tags become newlines, the text is stripped, and entities are unescaped
(other markup is out of scope for these claims). -/
def tpBody (s : String) : String :=
  htmlUnescape (pyStrip (pyReplace (pyReplace s "<br />" "\n") "<br>" "\n"))

/-- Embedding of parse_trustpilot_review_data: a dict in this key order.  The
two date fields reformat via fromisoformat after replacing Z with +00:00 and
keep the raw value (None included, via the caught TypeError) when parsing
fails; likes defaults to 0, is_verified to False, verification_source to
Unknown. -/
def parse_trustpilot_review_data (rj : TPReviewJson) : Record :=
  [("id", optValue rj.id),
   ("author", optValue rj.displayName),
   ("consumer_id", optValue rj.consumerId),
   ("consumer_reviews_count", optNatValue rj.numberOfReviews),
   ("consumer_country", optValue rj.countryCode),
   ("date_published",
     match rj.publishedDate with
     | none => Value.vnone
     | some s =>
       match fromisoformat (pyReplace s "Z" "+00:00") with
       | some dt => Value.vstr (fmtDateTime dt)
       | none => Value.vstr s),
   ("date_experience",
     match rj.experiencedDate with
     | none => Value.vnone
     | some s =>
       match fromisoformat (pyReplace s "Z" "+00:00") with
       | some dt => Value.vstr (fmtDate dt)
       | none => Value.vstr s),
   ("rating", optNatValue rj.rating),
   ("title", optValue rj.title),
   ("body", Value.vstr (tpBody (rj.text.getD ""))),
   ("language", optValue rj.language),
   ("likes", Value.vnat (rj.likes.getD 0)),
   ("is_verified", Value.vbool (rj.isVerified.getD false)),
   ("verification_source", Value.vstr (rj.reviewSourceName.getD "Unknown"))]

/-- Embedding of the per-page for-loop of extract_trustpilot_reviews: parse
each review object and append it when its id value is not in the processed
set (the dict itself is always truthy).  Returns the processed-id set, the
accumulator, and the number of records appended from this page. -/
def processReviews : List TPReviewJson → List Value → List Record →
    List Value × List Record × Nat
  | [], seen, acc => (seen, acc, 0)
  | rj :: rest, seen, acc =>
    let review_data := parse_trustpilot_review_data rj
    let idv := getValOrNone review_data "id"
    if idv ∈ seen then processReviews rest seen acc
    else
      let r := processReviews rest (idv :: seen) (acc ++ [review_data])
      (r.1, r.2.1, r.2.2 + 1)

/-- The id values carried by a page's review objects, in array order; ghost
data used to state the first-encounter-order property. -/
def candidateIds (reviews : List TPReviewJson) : List Value :=
  reviews.map (fun rj => getValOrNone (parse_trustpilot_review_data rj) "id")

/-- Embedding of the while-loop of extract_trustpilot_reviews from page 2 on
(total_pages is already fixed by the first iteration).  Each iteration
requests current_page; a non-ok outcome breaks; an empty reviews array breaks;
otherwise the page is deduplicated into the accumulator and the loop breaks
when current_page has reached total_pages, else advances by one.  Returns the
accumulator, the requested page numbers appended to pages, and the ghost
stream of id values in encounter order. -/
def pageLoop (env : Nat → PageOutcome) (total_pages : Nat) :
    Nat → Nat → List Value → List Record → List Nat →
    List Record × List Nat × List Value
  | 0, _current_page, _seen, acc, pages => (acc, pages, [])
  | fuel + 1, current_page, seen, acc, pages =>
    let pages := pages ++ [current_page]
    match env current_page with
    | PageOutcome.ok page =>
      if page.reviews.isEmpty then (acc, pages, [])
      else
        let r := processReviews page.reviews seen acc
        if total_pages ≤ current_page then
          (r.2.1, pages, candidateIds page.reviews)
        else
          let l := pageLoop env total_pages fuel (current_page + 1) r.1 r.2.1 pages
          (l.1, l.2.1, candidateIds page.reviews ++ l.2.2)
    | _ => (acc, pages, [])

/-- Embedding of extract_trustpilot_reviews before the final pops.  The first
iteration requests page 1, determines total_pages from the payload (keeping
the initial value 1 when the lookup raises KeyError or TypeError; the code
also resets max_pages to 1000 when it was 0 in that branch, but max_pages is
never read again so the reset has no observable effect), applies the
max_pages cap when max_pages is positive, and then behaves like the later
iterations.  Returns the accumulator, the requested page numbers, and the
ghost id stream. -/
def extractCore (env : Nat → PageOutcome) (max_pages : Nat) :
    List Record × List Nat × List Value :=
  match env 1 with
  | PageOutcome.ok page =>
    let total_pages :=
      match page.totalPages with
      | some t => if 0 < max_pages then min t max_pages else t
      | none => 1
    if page.reviews.isEmpty then ([], [1], [])
    else
      let r := processReviews page.reviews [] []
      if total_pages ≤ 1 then (r.2.1, [1], candidateIds page.reviews)
      else
        let l := pageLoop env total_pages total_pages 2 r.1 r.2.1 [1]
        (l.1, l.2.1, candidateIds page.reviews ++ l.2.2)
  | _ => ([], [1], [])

/-- Embedding of extract_trustpilot_reviews: the core accumulator with the
temporary id and consumer_id popped from every record. -/
def extract_trustpilot_reviews (env : Nat → PageOutcome) (max_pages : Nat) :
    List Record :=
  (extractCore env max_pages).1.map (fun rv => popKey (popKey rv "id") "consumer_id")

end TP

/-! ### CSV and Excel writers

The three scripts carry textually identical writer pairs (modulo logging), so
one embedding of each function covers all of them.  The filesystem effect is
abstracted to the data written: none models "no file is written" (the early
return on an empty list), and some (header, rows) models the header row and
the data rows in order. -/

/-- Code-point comparison of character lists: Python compares strings
lexicographically by Unicode code points. -/
def charListLe : List Char → List Char → Bool
  | [], _ => true
  | _ :: _, [] => false
  | a :: as, b :: bs =>
    if a.toNat < b.toNat then true
    else if b.toNat < a.toNat then false
    else charListLe as bs

/-- Model of the Python string order used by sorted(). -/
def pyStrLe (a b : String) : Bool :=
  charListLe a.data b.data

/-- Insert a string into a list so that an already ascending list stays
ascending (the elementary step of a stable sort). -/
def insertSorted (k : String) : List String → List String
  | [] => [k]
  | x :: xs => if pyStrLe k x then k :: x :: xs else x :: insertSorted k xs

/-- Model of Python sorted() on a list of strings. -/
def sortStrings : List String → List String
  | [] => []
  | x :: xs => insertSorted x (sortStrings xs)

/-- Model of fieldnames.update(review.keys()) on a set represented as a
duplicate-free list: add each key not already present. -/
def addKeys : List String → List String → List String
  | [], acc => acc
  | k :: ks, acc => if k ∈ acc then addKeys ks acc else addKeys ks (acc ++ [k])

/-- The union of all keys over a list of records, duplicate-free. -/
def collectFieldnames : List Record → List String → List String
  | [], acc => acc
  | r :: rs, acc => collectFieldnames rs (addKeys (keysOf r) acc)

/-- Embedding of write_reviews_to_csv: nothing is written for an empty list;
otherwise the header is the sorted key union and each record becomes one row,
with DictWriter substituting its restval (the empty string) for a missing
field. -/
def write_reviews_to_csv (reviews : List Record) :
    Option (List String × List (List Value)) :=
  if reviews.isEmpty then none
  else
    let fieldnames := sortStrings (collectFieldnames reviews [])
    some (fieldnames,
      reviews.map (fun review => fieldnames.map (fun f => getValD review f (Value.vstr ""))))

/-- Embedding of write_reviews_to_excel: nothing is written for an empty list;
otherwise the header row is the sorted key union and each record becomes one
appended row via review.get(field, empty string). -/
def write_reviews_to_excel (reviews : List Record) :
    Option (List String × List (List Value)) :=
  if reviews.isEmpty then none
  else
    let fieldnames := sortStrings (collectFieldnames reviews [])
    some (fieldnames,
      reviews.map (fun review => fieldnames.map (fun f => getValD review f (Value.vstr ""))))

/-! ### General lemmas -/

theorem truthyStr_inv {v : Value} {s : String} (h : truthyStr v = some s) :
    v = Value.vstr s := by
  cases v with
  | vstr t =>
    by_cases ht : t = ""
    · simp [truthyStr, ht] at h
    · simp [truthyStr, ht] at h
      simp [h]
  | vnone => simp [truthyStr] at h
  | vnat n => simp [truthyStr] at h
  | vbool b => simp [truthyStr] at h

theorem mem_dedupFirst {α : Type} [DecidableEq α] (l : List α) (x : α) :
    ∀ seen, x ∈ dedupFirst l seen ↔ x ∈ l ∧ x ∉ seen := by
  induction l with
  | nil => intro seen; simp [dedupFirst]
  | cons a t ih =>
    intro seen
    by_cases ha : a ∈ seen
    · rw [dedupFirst, if_pos ha, ih]
      simp only [List.mem_cons]
      constructor
      · rintro ⟨hx, hs⟩
        exact ⟨Or.inr hx, hs⟩
      · rintro ⟨hx | hx, hs⟩
        · subst hx; exact absurd ha hs
        · exact ⟨hx, hs⟩
    · rw [dedupFirst, if_neg ha]
      simp only [List.mem_cons, ih]
      constructor
      · rintro (rfl | ⟨hx, hs⟩)
        · exact ⟨Or.inl rfl, ha⟩
        · refine ⟨Or.inr hx, fun hxs => hs (Or.inr hxs)⟩
      · rintro ⟨rfl | hx, hs⟩
        · exact Or.inl rfl
        · by_cases hxa : x = a
          · exact Or.inl hxa
          · exact Or.inr ⟨hx, by simp [List.mem_cons, hxa, hs]⟩

theorem dedupFirst_congr {α : Type} [DecidableEq α] (l : List α) :
    ∀ s₁ s₂, (∀ x, x ∈ s₁ ↔ x ∈ s₂) → dedupFirst l s₁ = dedupFirst l s₂ := by
  induction l with
  | nil => intro s₁ s₂ _; rfl
  | cons a t ih =>
    intro s₁ s₂ h
    by_cases ha : a ∈ s₁
    · rw [dedupFirst, if_pos ha, dedupFirst, if_pos ((h a).mp ha), ih s₁ s₂ h]
    · rw [dedupFirst, if_neg ha, dedupFirst, if_neg (fun hc => ha ((h a).mpr hc))]
      rw [ih (a :: s₁) (a :: s₂) (fun x => by simp [List.mem_cons, h x])]

theorem dedupFirst_append {α : Type} [DecidableEq α] (a : List α) :
    ∀ (b s : List α),
      dedupFirst (a ++ b) s = dedupFirst a s ++ dedupFirst b (a ++ s) := by
  induction a with
  | nil => intro b s; simp [dedupFirst]
  | cons x t ih =>
    intro b s
    by_cases hx : x ∈ s
    · rw [List.cons_append, dedupFirst, if_pos hx, dedupFirst, if_pos hx, ih]
      congr 1
      refine dedupFirst_congr b _ _ (fun y => ?_)
      simp only [List.cons_append, List.mem_cons, List.mem_append]
      constructor
      · intro h
        exact Or.inr h
      · rintro (rfl | h)
        · exact Or.inr hx
        · exact h
    · rw [List.cons_append, dedupFirst, if_neg hx, dedupFirst, if_neg hx, ih b (x :: s)]
      simp only [List.cons_append]
      congr 1
      congr 1
      refine dedupFirst_congr b _ _ (fun y => ?_)
      simp only [List.mem_append, List.mem_cons]
      tauto

theorem dedupFirst_nodup {α : Type} [DecidableEq α] (l : List α) :
    ∀ seen, (dedupFirst l seen).Nodup := by
  induction l with
  | nil => intro seen; simp [dedupFirst]
  | cons a t ih =>
    intro seen
    by_cases ha : a ∈ seen
    · rw [dedupFirst, if_pos ha]; exact ih seen
    · rw [dedupFirst, if_neg ha]
      refine List.nodup_cons.mpr ⟨?_, ih (a :: seen)⟩
      intro hc
      exact ((mem_dedupFirst t a (a :: seen)).mp hc).2 (List.mem_cons_self a seen)

theorem dedupFirst_eq_nil_iff {α : Type} [DecidableEq α] (l : List α) :
    ∀ seen, dedupFirst l seen = [] ↔ ∀ x ∈ l, x ∈ seen := by
  induction l with
  | nil => intro seen; simp [dedupFirst]
  | cons a t ih =>
    intro seen
    by_cases ha : a ∈ seen
    · rw [dedupFirst, if_pos ha, ih]
      constructor
      · intro h x hx
        rcases List.mem_cons.mp hx with rfl | hx
        · exact ha
        · exact h x hx
      · intro h x hx
        exact h x (List.mem_cons_of_mem _ hx)
    · rw [dedupFirst, if_neg ha]
      constructor
      · intro h; exact absurd h (List.cons_ne_nil _ _)
      · intro h
        exact absurd (h a (List.mem_cons_self a t)) ha

theorem not_mem_keysOf_popKey (r : Record) (k : String) :
    k ∉ keysOf (popKey r k) := by
  intro h
  rcases List.mem_map.mp h with ⟨p, hp, hk⟩
  have := List.of_mem_filter hp
  rw [hk] at this
  simp at this

theorem keysOf_popKey_subset (r : Record) (k k' : String) :
    k' ∈ keysOf (popKey r k) → k' ∈ keysOf r := by
  intro h
  rcases List.mem_map.mp h with ⟨p, hp, hk⟩
  exact List.mem_map.mpr ⟨p, List.mem_of_mem_filter hp, hk⟩

/-! ### Lemmas about the trustindex_scraper.py loop -/

theorem TI1.getVal_parse_review_id (d : ReviewDiv) :
    getValOrNone (TI1.parse_review_div d) "review_id" = optValue d.dataId := rfl

theorem TI1.candidateIds_nil : TI1.candidateIds [] = [] := rfl

theorem TI1.candidateIds_cons_none (d : ReviewDiv) (ds : List ReviewDiv)
    (h : truthyStr (getValOrNone (TI1.parse_review_div d) "review_id") = none) :
    TI1.candidateIds (d :: ds) = TI1.candidateIds ds := by
  simp [TI1.candidateIds, List.filterMap_cons, h]

theorem TI1.candidateIds_cons_some (d : ReviewDiv) (ds : List ReviewDiv) (rid : String)
    (h : truthyStr (getValOrNone (TI1.parse_review_div d) "review_id") = some rid) :
    TI1.candidateIds (d :: ds) = rid :: TI1.candidateIds ds := by
  simp [TI1.candidateIds, List.filterMap_cons, h]

theorem TI1.processDivs_spec (ds : List ReviewDiv) :
    ∀ seen acc,
      ((TI1.processDivs ds seen acc).2.1.map (fun r => getValOrNone r "review_id") =
        acc.map (fun r => getValOrNone r "review_id") ++
          (dedupFirst (TI1.candidateIds ds) seen).map Value.vstr) ∧
      (∀ x, x ∈ (TI1.processDivs ds seen acc).1 ↔
        x ∈ seen ∨ x ∈ dedupFirst (TI1.candidateIds ds) seen) ∧
      (TI1.processDivs ds seen acc).2.2 = (dedupFirst (TI1.candidateIds ds) seen).length := by
  induction ds with
  | nil =>
    intro seen acc
    simp [TI1.processDivs, TI1.candidateIds, dedupFirst]
  | cons d t ih =>
    intro seen acc
    cases h : truthyStr (getValOrNone (TI1.parse_review_div d) "review_id") with
    | none =>
      rw [TI1.candidateIds_cons_none d t h]
      have hp : TI1.processDivs (d :: t) seen acc = TI1.processDivs t seen acc := by
        simp [TI1.processDivs, h]
      rw [hp]
      exact ih seen acc
    | some rid =>
      rw [TI1.candidateIds_cons_some d t rid h]
      by_cases hm : rid ∈ seen
      · have hp : TI1.processDivs (d :: t) seen acc = TI1.processDivs t seen acc := by
          simp [TI1.processDivs, h, hm]
        rw [hp, dedupFirst, if_pos hm]
        exact ih seen acc
      · have hid : getValOrNone (TI1.parse_review_div d) "review_id" = Value.vstr rid :=
          truthyStr_inv h
        have hp : TI1.processDivs (d :: t) seen acc =
            ((TI1.processDivs t (rid :: seen) (acc ++ [TI1.parse_review_div d])).1,
             (TI1.processDivs t (rid :: seen) (acc ++ [TI1.parse_review_div d])).2.1,
             (TI1.processDivs t (rid :: seen) (acc ++ [TI1.parse_review_div d])).2.2 + 1) := by
          simp [TI1.processDivs, h, hm]
        rw [hp, dedupFirst, if_neg hm]
        obtain ⟨ih1, ih2, ih3⟩ := ih (rid :: seen) (acc ++ [TI1.parse_review_div d])
        refine ⟨?_, ?_, ?_⟩
        · simpa [hid, List.append_assoc] using ih1
        · intro x
          rw [show (((TI1.processDivs t (rid :: seen) (acc ++ [TI1.parse_review_div d])).1,
             (TI1.processDivs t (rid :: seen) (acc ++ [TI1.parse_review_div d])).2.1,
             (TI1.processDivs t (rid :: seen) (acc ++ [TI1.parse_review_div d])).2.2 + 1)).1 =
             (TI1.processDivs t (rid :: seen) (acc ++ [TI1.parse_review_div d])).1 from rfl,
             ih2 x]
          simp only [List.mem_cons]
          tauto
        · simpa using ih3

theorem TI1.clickLoop_ids :
    ∀ (fuel : Nat) (clicks : List ClickOutcome) (seen : List String) (acc : List Record),
      (TI1.clickLoop clicks fuel seen acc).1.map (fun r => getValOrNone r "review_id") =
        acc.map (fun r => getValOrNone r "review_id") ++
          (dedupFirst (TI1.clickLoop clicks fuel seen acc).2.2 seen).map Value.vstr := by
  intro fuel
  induction fuel with
  | zero =>
    intro clicks seen acc
    cases clicks <;> simp [TI1.clickLoop, dedupFirst]
  | succ n ih =>
    intro clicks seen acc
    cases clicks with
    | nil => simp [TI1.clickLoop, dedupFirst]
    | cons c rest =>
      cases c with
      | err => simp [TI1.clickLoop, dedupFirst]
      | ok divs =>
        obtain ⟨h1, h2, h3⟩ := TI1.processDivs_spec divs seen acc
        by_cases hz : (TI1.processDivs divs seen acc).2.2 = 0
        · have he : TI1.clickLoop (ClickOutcome.ok divs :: rest) (n + 1) seen acc =
              ((TI1.processDivs divs seen acc).2.1, 1, TI1.candidateIds divs) := by
            simp [TI1.clickLoop, hz]
          rw [he]
          exact h1
        · have he : TI1.clickLoop (ClickOutcome.ok divs :: rest) (n + 1) seen acc =
              ((TI1.clickLoop rest n (TI1.processDivs divs seen acc).1
                  (TI1.processDivs divs seen acc).2.1).1,
               (TI1.clickLoop rest n (TI1.processDivs divs seen acc).1
                  (TI1.processDivs divs seen acc).2.1).2.1 + 1,
               TI1.candidateIds divs ++
                 (TI1.clickLoop rest n (TI1.processDivs divs seen acc).1
                    (TI1.processDivs divs seen acc).2.1).2.2) := by
            simp [TI1.clickLoop, hz]
          rw [he]
          have hih := ih rest (TI1.processDivs divs seen acc).1 (TI1.processDivs divs seen acc).2.1
          rw [hih, h1, dedupFirst_append, List.map_append, List.append_assoc]
          congr 2
          refine congrArg (List.map Value.vstr) (dedupFirst_congr _ _ _ (fun x => ?_))
          rw [h2 x, mem_dedupFirst, List.mem_append]
          constructor
          · rintro (hs | ⟨hc, hns⟩)
            · exact Or.inr hs
            · exact Or.inl hc
          · rintro (hc | hs)
            · by_cases hns : x ∈ seen
              · exact Or.inl hns
              · exact Or.inr ⟨hc, hns⟩
            · exact Or.inl hs

theorem TI1.clickLoop_count_le :
    ∀ (fuel : Nat) (clicks : List ClickOutcome) (seen : List String) (acc : List Record),
      (TI1.clickLoop clicks fuel seen acc).2.1 ≤ fuel := by
  intro fuel
  induction fuel with
  | zero =>
    intro clicks seen acc
    cases clicks <;> simp [TI1.clickLoop]
  | succ n ih =>
    intro clicks seen acc
    cases clicks with
    | nil => simp [TI1.clickLoop]
    | cons c rest =>
      cases c with
      | err => simp [TI1.clickLoop]
      | ok divs =>
        by_cases hz : (TI1.processDivs divs seen acc).2.2 = 0
        · simp [TI1.clickLoop, hz]
        · have he : (TI1.clickLoop (ClickOutcome.ok divs :: rest) (n + 1) seen acc).2.1 =
              (TI1.clickLoop rest n (TI1.processDivs divs seen acc).1
                (TI1.processDivs divs seen acc).2.1).2.1 + 1 := by
            simp [TI1.clickLoop, hz]
          rw [he]
          exact Nat.succ_le_succ (ih rest _ _)

theorem TI1.extractCore_ids (env : TiEnv) (max_loops : Nat) :
    (TI1.extractCore env max_loops).1.map (fun r => getValOrNone r "review_id") =
      (dedupFirst (TI1.extractCore env max_loops).2.2 []).map Value.vstr := by
  by_cases hs : env.setupFails
  · simp [TI1.extractCore, hs, dedupFirst]
  · obtain ⟨h1, h2, h3⟩ := TI1.processDivs_spec env.initialDivs [] []
    have he : TI1.extractCore env max_loops =
        ((TI1.clickLoop env.clicks max_loops (TI1.processDivs env.initialDivs [] []).1
            (TI1.processDivs env.initialDivs [] []).2.1).1,
         (TI1.clickLoop env.clicks max_loops (TI1.processDivs env.initialDivs [] []).1
            (TI1.processDivs env.initialDivs [] []).2.1).2.1,
         TI1.candidateIds env.initialDivs ++
           (TI1.clickLoop env.clicks max_loops (TI1.processDivs env.initialDivs [] []).1
              (TI1.processDivs env.initialDivs [] []).2.1).2.2) := by
      simp [TI1.extractCore, hs]
    rw [he]
    rw [TI1.clickLoop_ids max_loops env.clicks _ _, h1, dedupFirst_append, List.map_append]
    simp only [List.map_nil, List.nil_append, List.append_nil]
    congr 1
    refine congrArg (List.map Value.vstr) (dedupFirst_congr _ _ _ (fun x => ?_))
    rw [h2 x, mem_dedupFirst]
    simp [List.mem_append]

/-! ### Lemmas about the trustpilot_scraper.py loop -/

theorem TP.getVal_parse_id (rj : TPReviewJson) :
    getValOrNone (TP.parse_trustpilot_review_data rj) "id" = optValue rj.id := rfl

theorem TP.candidateIds_cons (rj : TPReviewJson) (t : List TPReviewJson) :
    TP.candidateIds (rj :: t) =
      getValOrNone (TP.parse_trustpilot_review_data rj) "id" :: TP.candidateIds t := rfl

theorem TP.processReviews_spec (l : List TPReviewJson) :
    ∀ seen acc,
      ((TP.processReviews l seen acc).2.1.map (fun r => getValOrNone r "id") =
        acc.map (fun r => getValOrNone r "id") ++ dedupFirst (TP.candidateIds l) seen) ∧
      (∀ x, x ∈ (TP.processReviews l seen acc).1 ↔
        x ∈ seen ∨ x ∈ dedupFirst (TP.candidateIds l) seen) ∧
      (TP.processReviews l seen acc).2.2 = (dedupFirst (TP.candidateIds l) seen).length := by
  induction l with
  | nil =>
    intro seen acc
    simp [TP.processReviews, TP.candidateIds, dedupFirst]
  | cons rj t ih =>
    intro seen acc
    rw [TP.candidateIds_cons]
    by_cases hm : getValOrNone (TP.parse_trustpilot_review_data rj) "id" ∈ seen
    · have hp : TP.processReviews (rj :: t) seen acc = TP.processReviews t seen acc := by
        simp [TP.processReviews, hm]
      rw [hp, dedupFirst, if_pos hm]
      exact ih seen acc
    · have hp : TP.processReviews (rj :: t) seen acc =
          ((TP.processReviews t (getValOrNone (TP.parse_trustpilot_review_data rj) "id" :: seen)
              (acc ++ [TP.parse_trustpilot_review_data rj])).1,
           (TP.processReviews t (getValOrNone (TP.parse_trustpilot_review_data rj) "id" :: seen)
              (acc ++ [TP.parse_trustpilot_review_data rj])).2.1,
           (TP.processReviews t (getValOrNone (TP.parse_trustpilot_review_data rj) "id" :: seen)
              (acc ++ [TP.parse_trustpilot_review_data rj])).2.2 + 1) := by
        simp [TP.processReviews, hm]
      rw [hp, dedupFirst, if_neg hm]
      obtain ⟨ih1, ih2, ih3⟩ := ih (getValOrNone (TP.parse_trustpilot_review_data rj) "id" :: seen)
        (acc ++ [TP.parse_trustpilot_review_data rj])
      refine ⟨?_, ?_, ?_⟩
      · simpa [List.append_assoc] using ih1
      · intro x
        rw [show (((TP.processReviews t (getValOrNone (TP.parse_trustpilot_review_data rj) "id" :: seen)
              (acc ++ [TP.parse_trustpilot_review_data rj])).1,
           (TP.processReviews t (getValOrNone (TP.parse_trustpilot_review_data rj) "id" :: seen)
              (acc ++ [TP.parse_trustpilot_review_data rj])).2.1,
           (TP.processReviews t (getValOrNone (TP.parse_trustpilot_review_data rj) "id" :: seen)
              (acc ++ [TP.parse_trustpilot_review_data rj])).2.2 + 1)).1 =
           (TP.processReviews t (getValOrNone (TP.parse_trustpilot_review_data rj) "id" :: seen)
              (acc ++ [TP.parse_trustpilot_review_data rj])).1 from rfl, ih2 x]
        simp only [List.mem_cons]
        tauto
      · simpa using ih3

theorem TP.pageLoop_ids (env : Nat → PageOutcome) (total_pages : Nat) :
    ∀ (fuel current_page : Nat) (seen : List Value) (acc : List Record) (pages : List Nat),
      (TP.pageLoop env total_pages fuel current_page seen acc pages).1.map
          (fun r => getValOrNone r "id") =
        acc.map (fun r => getValOrNone r "id") ++
          dedupFirst (TP.pageLoop env total_pages fuel current_page seen acc pages).2.2 seen := by
  intro fuel
  induction fuel with
  | zero =>
    intro current_page seen acc pages
    simp [TP.pageLoop, dedupFirst]
  | succ n ih =>
    intro current_page seen acc pages
    cases ho : env current_page with
    | fetchErr => simp [TP.pageLoop, ho, dedupFirst]
    | noScript => simp [TP.pageLoop, ho, dedupFirst]
    | jsonErr => simp [TP.pageLoop, ho, dedupFirst]
    | procErr => simp [TP.pageLoop, ho, dedupFirst]
    | ok page =>
      by_cases hemp : page.reviews.isEmpty
      · simp [TP.pageLoop, ho, hemp, dedupFirst]
      · obtain ⟨h1, h2, h3⟩ := TP.processReviews_spec page.reviews seen acc
        by_cases hlast : total_pages ≤ current_page
        · have he : TP.pageLoop env total_pages (n + 1) current_page seen acc pages =
              ((TP.processReviews page.reviews seen acc).2.1,
               pages ++ [current_page], TP.candidateIds page.reviews) := by
            simp [TP.pageLoop, ho, hemp, hlast]
          rw [he]
          exact h1
        · have he : TP.pageLoop env total_pages (n + 1) current_page seen acc pages =
              ((TP.pageLoop env total_pages n (current_page + 1)
                  (TP.processReviews page.reviews seen acc).1
                  (TP.processReviews page.reviews seen acc).2.1 (pages ++ [current_page])).1,
               (TP.pageLoop env total_pages n (current_page + 1)
                  (TP.processReviews page.reviews seen acc).1
                  (TP.processReviews page.reviews seen acc).2.1 (pages ++ [current_page])).2.1,
               TP.candidateIds page.reviews ++
                 (TP.pageLoop env total_pages n (current_page + 1)
                    (TP.processReviews page.reviews seen acc).1
                    (TP.processReviews page.reviews seen acc).2.1 (pages ++ [current_page])).2.2) := by
            simp [TP.pageLoop, ho, hemp, hlast]
          rw [he]
          rw [ih (current_page + 1) (TP.processReviews page.reviews seen acc).1
              (TP.processReviews page.reviews seen acc).2.1 (pages ++ [current_page])]
          rw [h1, dedupFirst_append, List.append_assoc]
          congr 2
          refine dedupFirst_congr _ _ _ (fun x => ?_)
          rw [h2 x, mem_dedupFirst, List.mem_append]
          constructor
          · rintro (hs | ⟨hc, hns⟩)
            · exact Or.inr hs
            · exact Or.inl hc
          · rintro (hc | hs)
            · by_cases hns : x ∈ seen
              · exact Or.inl hns
              · exact Or.inr ⟨hc, hns⟩
            · exact Or.inl hs

theorem TP.pageLoop_pages (env : Nat → PageOutcome) (total_pages : Nat) :
    ∀ (fuel current_page : Nat) (seen : List Value) (acc : List Record) (pages : List Nat),
      current_page ≤ total_pages → total_pages < current_page + fuel →
      ∃ j, 1 ≤ j ∧ current_page + j ≤ total_pages + 1 ∧
        (TP.pageLoop env total_pages fuel current_page seen acc pages).2.1 =
          pages ++ List.range' current_page j := by
  intro fuel
  induction fuel with
  | zero =>
    intro current_page seen acc pages hle hfuel
    omega
  | succ n ih =>
    intro current_page seen acc pages hle hfuel
    cases ho : env current_page with
    | fetchErr => exact ⟨1, le_refl 1, by omega, by simp [TP.pageLoop, ho, List.range']⟩
    | noScript => exact ⟨1, le_refl 1, by omega, by simp [TP.pageLoop, ho, List.range']⟩
    | jsonErr => exact ⟨1, le_refl 1, by omega, by simp [TP.pageLoop, ho, List.range']⟩
    | procErr => exact ⟨1, le_refl 1, by omega, by simp [TP.pageLoop, ho, List.range']⟩
    | ok page =>
      by_cases hemp : page.reviews.isEmpty
      · exact ⟨1, le_refl 1, by omega, by simp [TP.pageLoop, ho, hemp, List.range']⟩
      · by_cases hlast : total_pages ≤ current_page
        · exact ⟨1, le_refl 1, by omega, by simp [TP.pageLoop, ho, hemp, hlast, List.range']⟩
        · obtain ⟨j, hj1, hj2, hj3⟩ := ih (current_page + 1)
            (TP.processReviews page.reviews seen acc).1
            (TP.processReviews page.reviews seen acc).2.1 (pages ++ [current_page])
            (by omega) (by omega)
          refine ⟨j + 1, by omega, by omega, ?_⟩
          have he : (TP.pageLoop env total_pages (n + 1) current_page seen acc pages).2.1 =
              (TP.pageLoop env total_pages n (current_page + 1)
                (TP.processReviews page.reviews seen acc).1
                (TP.processReviews page.reviews seen acc).2.1 (pages ++ [current_page])).2.1 := by
            simp [TP.pageLoop, ho, hemp, hlast]
          rw [he, hj3]
          simp [List.range', List.append_assoc]

theorem TP.extractCore_id_column (env : Nat → PageOutcome) (max_pages : Nat) :
    (TP.extractCore env max_pages).1.map (fun r => getValOrNone r "id") =
      dedupFirst (TP.extractCore env max_pages).2.2 [] := by
  cases h1 : env 1 with
  | fetchErr => simp [TP.extractCore, h1, dedupFirst]
  | noScript => simp [TP.extractCore, h1, dedupFirst]
  | jsonErr => simp [TP.extractCore, h1, dedupFirst]
  | procErr => simp [TP.extractCore, h1, dedupFirst]
  | ok page =>
    by_cases hemp : page.reviews.isEmpty
    · simp [TP.extractCore, h1, hemp, dedupFirst]
    · obtain ⟨p1, p2, p3⟩ := TP.processReviews_spec page.reviews [] []
      set T := match page.totalPages with
        | some t => if 0 < max_pages then min t max_pages else t
        | none => 1 with hT
      by_cases hle : T ≤ 1
      · have he : TP.extractCore env max_pages =
            ((TP.processReviews page.reviews [] []).2.1, [1], TP.candidateIds page.reviews) := by
          simp only [TP.extractCore, h1, hemp, Bool.false_eq_true, if_false, ← hT, hle, if_true]
        rw [he]
        simpa using p1
      · have he : TP.extractCore env max_pages =
            ((TP.pageLoop env T T 2 (TP.processReviews page.reviews [] []).1
                (TP.processReviews page.reviews [] []).2.1 [1]).1,
             (TP.pageLoop env T T 2 (TP.processReviews page.reviews [] []).1
                (TP.processReviews page.reviews [] []).2.1 [1]).2.1,
             TP.candidateIds page.reviews ++
               (TP.pageLoop env T T 2 (TP.processReviews page.reviews [] []).1
                  (TP.processReviews page.reviews [] []).2.1 [1]).2.2) := by
          simp only [TP.extractCore, h1, hemp, Bool.false_eq_true, if_false, ← hT, hle]
        rw [he]
        rw [TP.pageLoop_ids env T T 2 (TP.processReviews page.reviews [] []).1
            (TP.processReviews page.reviews [] []).2.1 [1]]
        rw [p1, dedupFirst_append]
        simp only [List.map_nil, List.nil_append, List.append_nil]
        congr 1
        refine dedupFirst_congr _ _ _ (fun x => ?_)
        rw [p2 x, mem_dedupFirst]
        simp [List.mem_append]

theorem TP.extractCore_pages_shape (env : Nat → PageOutcome) (max_pages : Nat) :
    ∃ k, 1 ≤ k ∧ (TP.extractCore env max_pages).2.1 = List.range' 1 k := by
  cases h1 : env 1 with
  | fetchErr => exact ⟨1, le_refl 1, by simp [TP.extractCore, h1, List.range']⟩
  | noScript => exact ⟨1, le_refl 1, by simp [TP.extractCore, h1, List.range']⟩
  | jsonErr => exact ⟨1, le_refl 1, by simp [TP.extractCore, h1, List.range']⟩
  | procErr => exact ⟨1, le_refl 1, by simp [TP.extractCore, h1, List.range']⟩
  | ok page =>
    by_cases hemp : page.reviews.isEmpty
    · exact ⟨1, le_refl 1, by simp [TP.extractCore, h1, hemp, List.range']⟩
    · set T := match page.totalPages with
        | some t => if 0 < max_pages then min t max_pages else t
        | none => 1 with hT
      by_cases hle : T ≤ 1
      · refine ⟨1, le_refl 1, ?_⟩
        have he : (TP.extractCore env max_pages).2.1 = [1] := by
          simp only [TP.extractCore, h1, hemp, Bool.false_eq_true, if_false, ← hT, hle, if_true]
        rw [he]; simp [List.range']
      · obtain ⟨j, hj1, hj2, hj3⟩ := TP.pageLoop_pages env T T 2
          (TP.processReviews page.reviews [] []).1
          (TP.processReviews page.reviews [] []).2.1 [1] (by omega) (by omega)
        refine ⟨j + 1, by omega, ?_⟩
        have he : (TP.extractCore env max_pages).2.1 =
            (TP.pageLoop env T T 2 (TP.processReviews page.reviews [] []).1
              (TP.processReviews page.reviews [] []).2.1 [1]).2.1 := by
          simp only [TP.extractCore, h1, hemp, Bool.false_eq_true, if_false, ← hT, hle]
        rw [he, hj3]
        simp [List.range']

theorem TP.extractCore_pages_le (env : Nat → PageOutcome) (max_pages t : Nat) (page : TPPage)
    (h1 : env 1 = PageOutcome.ok page) (ht : page.totalPages = some t)
    (htpos : 1 ≤ t) (hmp : 0 < max_pages) :
    (TP.extractCore env max_pages).2.1.length ≤ min t max_pages := by
  have hTmin : 1 ≤ min t max_pages := le_min htpos hmp
  by_cases hemp : page.reviews.isEmpty
  · have he : (TP.extractCore env max_pages).2.1 = [1] := by
      simp [TP.extractCore, h1, hemp]
    rw [he]; simpa using hTmin
  · have hTdef : (match page.totalPages with
        | some u => if 0 < max_pages then min u max_pages else u
        | none => 1) = min t max_pages := by
      rw [ht]; simp [hmp]
    by_cases hle : min t max_pages ≤ 1
    · have he : (TP.extractCore env max_pages).2.1 = [1] := by
        simp only [TP.extractCore, h1, hemp, Bool.false_eq_true, if_false, hTdef, hle, if_true]
      rw [he]; simpa using hTmin
    · obtain ⟨j, hj1, hj2, hj3⟩ := TP.pageLoop_pages env (min t max_pages) (min t max_pages) 2
        (TP.processReviews page.reviews [] []).1
        (TP.processReviews page.reviews [] []).2.1 [1] (by omega) (by omega)
      have he : (TP.extractCore env max_pages).2.1 =
          (TP.pageLoop env (min t max_pages) (min t max_pages) 2
            (TP.processReviews page.reviews [] []).1
            (TP.processReviews page.reviews [] []).2.1 [1]).2.1 := by
        simp only [TP.extractCore, h1, hemp, Bool.false_eq_true, if_false, hTdef, hle]
      rw [he, hj3]
      simp only [List.length_append, List.length_cons, List.length_nil, List.length_range']
      omega

/-! ### Lemmas about the writer functions -/

theorem mem_addKeys (ks : List String) :
    ∀ acc x, x ∈ addKeys ks acc ↔ x ∈ ks ∨ x ∈ acc := by
  induction ks with
  | nil => intro acc x; simp [addKeys]
  | cons k t ih =>
    intro acc x
    by_cases hk : k ∈ acc
    · rw [addKeys, if_pos hk, ih]
      simp only [List.mem_cons]
      constructor
      · rintro (h | h)
        · exact Or.inl (Or.inr h)
        · exact Or.inr h
      · rintro (h | h)
        · rcases h with rfl | h
          · exact Or.inr hk
          · exact Or.inl h
        · exact Or.inr h
    · rw [addKeys, if_neg hk, ih]
      simp only [List.mem_cons, List.mem_append, List.mem_singleton]
      tauto

theorem nodup_addKeys (ks : List String) :
    ∀ acc, acc.Nodup → (addKeys ks acc).Nodup := by
  induction ks with
  | nil => intro acc h; exact h
  | cons k t ih =>
    intro acc h
    by_cases hk : k ∈ acc
    · rw [addKeys, if_pos hk]; exact ih acc h
    · rw [addKeys, if_neg hk]
      refine ih (acc ++ [k]) ?_
      rw [← List.concat_eq_append]
      exact h.concat hk

theorem mem_collectFieldnames (rs : List Record) :
    ∀ acc x, x ∈ collectFieldnames rs acc ↔ (∃ r ∈ rs, x ∈ keysOf r) ∨ x ∈ acc := by
  induction rs with
  | nil => intro acc x; simp [collectFieldnames]
  | cons r t ih =>
    intro acc x
    rw [collectFieldnames, ih, mem_addKeys]
    simp only [List.mem_cons]
    constructor
    · rintro (⟨r', hr', hx⟩ | h | h)
      · exact Or.inl ⟨r', Or.inr hr', hx⟩
      · exact Or.inl ⟨r, Or.inl rfl, h⟩
      · exact Or.inr h
    · rintro (⟨r', hr' | hr', hx⟩ | h)
      · subst hr'; exact Or.inr (Or.inl hx)
      · exact Or.inl ⟨r', hr', hx⟩
      · exact Or.inr (Or.inr h)

theorem nodup_collectFieldnames (rs : List Record) :
    ∀ acc, acc.Nodup → (collectFieldnames rs acc).Nodup := by
  induction rs with
  | nil => intro acc h; exact h
  | cons r t ih =>
    intro acc h
    exact ih (addKeys (keysOf r) acc) (nodup_addKeys (keysOf r) acc h)

/-! ### Claim theorems -/

/-- C1: For every run of either scraper the accumulated records carry pairwise
distinct source identifiers, skipping any parsed record whose id is already in
the seen set, and they appear in the order the ids were first encountered
across the initial load and every subsequent click/page: the id column of the
pre-pop accumulator equals the first-occurrence deduplication of the ghost
stream of encountered ids, and the returned list is that accumulator with the
temporary id keys popped. -/
theorem claim1_dedup_first_encounter :
    (∀ (env : TiEnv) (max_loops : Nat),
      ((TI1.extractCore env max_loops).1.map (fun r => getValOrNone r "review_id")).Nodup ∧
      (TI1.extractCore env max_loops).1.map (fun r => getValOrNone r "review_id") =
        (dedupFirst (TI1.extractCore env max_loops).2.2 []).map Value.vstr ∧
      TI1.extract_reviews_selenium env max_loops =
        (TI1.extractCore env max_loops).1.map (fun rv => popKey rv "review_id")) ∧
    (∀ (env : Nat → PageOutcome) (max_pages : Nat),
      ((TP.extractCore env max_pages).1.map (fun r => getValOrNone r "id")).Nodup ∧
      (TP.extractCore env max_pages).1.map (fun r => getValOrNone r "id") =
        dedupFirst (TP.extractCore env max_pages).2.2 [] ∧
      TP.extract_trustpilot_reviews env max_pages =
        (TP.extractCore env max_pages).1.map (fun rv => popKey (popKey rv "id") "consumer_id")) := by
  constructor
  · intro env ml
    refine ⟨?_, TI1.extractCore_ids env ml, rfl⟩
    rw [TI1.extractCore_ids env ml]
    exact List.Nodup.map (fun a b h => Value.vstr.inj h) (dedupFirst_nodup _ _)
  · intro env mp
    refine ⟨?_, TP.extractCore_id_column env mp, rfl⟩
    rw [TP.extractCore_id_column env mp]
    exact dedupFirst_nodup _ _

/-- C2: The loops are bounded: the trustindex_scraper.py loop body runs at most
max_loops times, and extract_trustpilot_reviews with a positive max_pages and a
first page reporting totalPages t requests at most min t max_pages pages,
advancing the page counter by one each iteration (the requested pages form the
initial segment starting at 1). -/
theorem claim2_loop_bounds :
    (∀ (env : TiEnv) (max_loops : Nat),
      (TI1.extractCore env max_loops).2.1 ≤ max_loops) ∧
    (∀ (env : Nat → PageOutcome) (max_pages t : Nat) (page : TPPage),
      env 1 = PageOutcome.ok page → page.totalPages = some t → 1 ≤ t → 0 < max_pages →
      (TP.extractCore env max_pages).2.1.length ≤ min t max_pages ∧
      (TP.extractCore env max_pages).2.1 =
        List.range' 1 (TP.extractCore env max_pages).2.1.length) := by
  constructor
  · intro env ml
    by_cases hs : env.setupFails
    · simp [TI1.extractCore, hs]
    · have he : (TI1.extractCore env ml).2.1 =
          (TI1.clickLoop env.clicks ml (TI1.processDivs env.initialDivs [] []).1
            (TI1.processDivs env.initialDivs [] []).2.1).2.1 := by
        simp [TI1.extractCore, hs]
      rw [he]
      exact TI1.clickLoop_count_le ml _ _ _
  · intro env mp t page h1 ht htpos hmp
    refine ⟨TP.extractCore_pages_le env mp t page h1 ht htpos hmp, ?_⟩
    obtain ⟨k, hk, hsh⟩ := TP.extractCore_pages_shape env mp
    rw [hsh, List.length_range']

/-- C2 witness: concrete runs of both bounds. -/
theorem claim2_loop_bounds_witness :
    (TI1.extractCore ⟨false, [], []⟩ 3).2.1 ≤ 3 ∧
    ((TP.extractCore (fun _ => PageOutcome.ok
        ⟨[⟨some "r1", none, none, none, none, none, none, none, none, none, none,
           none, none, none⟩], some 3⟩) 2).2.1.length ≤ min 3 2 ∧
      (TP.extractCore (fun _ => PageOutcome.ok
        ⟨[⟨some "r1", none, none, none, none, none, none, none, none, none, none,
           none, none, none⟩], some 3⟩) 2).2.1 =
        List.range' 1 (TP.extractCore (fun _ => PageOutcome.ok
        ⟨[⟨some "r1", none, none, none, none, none, none, none, none, none, none,
           none, none, none⟩], some 3⟩) 2).2.1.length) :=
  ⟨claim2_loop_bounds.1 ⟨false, [], []⟩ 3,
   claim2_loop_bounds.2 (fun _ => PageOutcome.ok
        ⟨[⟨some "r1", none, none, none, none, none, none, none, none, none, none,
           none, none, none⟩], some 3⟩) 2 3
     ⟨[⟨some "r1", none, none, none, none, none, none, none, none, none, none,
        none, none, none⟩], some 3⟩ rfl rfl (by decide) (by decide)⟩

/-- C3: A pass that adds zero new unique records stops the loop immediately:
the loop exits after that body run (its result does not depend on any later
outcome, and the body count is 1), for a trustindex_scraper.py click whose
parse adds nothing, a trustindex_scraper2.py click whose unique count does not
grow, and a Trustpilot page with an empty reviews array. -/
theorem claim3_no_new_records_stops :
    (∀ (divs : List ReviewDiv) (rest : List ClickOutcome) (fuel : Nat)
        (seen : List String) (acc : List Record),
      (TI1.processDivs divs seen acc).2.2 = 0 →
      TI1.clickLoop (ClickOutcome.ok divs :: rest) (fuel + 1) seen acc =
        ((TI1.processDivs divs seen acc).2.1, 1, TI1.candidateIds divs)) ∧
    (∀ (newDom : List ReviewDiv) (rest : List ClickOutcome) (fuel domCount : Nat)
        (seen : List String) (acc : List Record),
      domCount < newDom.length →
      (TI2.processDivs newDom seen acc).1.length = seen.length →
      TI2.clickLoop (ClickOutcome.ok newDom :: rest) (fuel + 1) domCount seen acc =
        ((TI2.processDivs newDom seen acc).2.1, 1)) ∧
    (∀ (env : Nat → PageOutcome) (total_pages fuel current_page : Nat)
        (seen : List Value) (acc : List Record) (pages : List Nat) (page : TPPage),
      env current_page = PageOutcome.ok page → page.reviews = [] →
      TP.pageLoop env total_pages (fuel + 1) current_page seen acc pages =
        (acc, pages ++ [current_page], [])) := by
  refine ⟨?_, ?_, ?_⟩
  · intro divs rest fuel seen acc hz
    simp [TI1.clickLoop, hz]
  · intro newDom rest fuel domCount seen acc hgrow hsame
    have hle : ¬ newDom.length ≤ domCount := Nat.not_le.mpr hgrow
    simp [TI2.clickLoop, hle, hsame]
  · intro env total_pages fuel current_page seen acc pages page ho hemp
    have he : page.reviews.isEmpty = true := by simp [hemp]
    simp [TP.pageLoop, ho, he]

/-- C3 witness: concrete stopped runs of all three loops. -/
theorem claim3_no_new_records_stops_witness :
    (TI1.clickLoop (ClickOutcome.ok [] :: [ClickOutcome.ok []]) 5 [] [] =
      ((TI1.processDivs [] ([] : List String) ([] : List Record)).2.1, 1,
        TI1.candidateIds [])) ∧
    (TI2.clickLoop (ClickOutcome.ok [⟨none, none, none, none, none, []⟩] :: []) 5 0 [] [] =
      ((TI2.processDivs [⟨none, none, none, none, none, []⟩]
          ([] : List String) ([] : List Record)).2.1, 1)) ∧
    (TP.pageLoop (fun _ => PageOutcome.ok ⟨[], some 9⟩) 9 3 2 [] [] [1] =
      ([], [1] ++ [2], [])) :=
  ⟨claim3_no_new_records_stops.1 [] [ClickOutcome.ok []] 4 [] [] (by decide),
   claim3_no_new_records_stops.2.1 [⟨none, none, none, none, none, []⟩] [] 4 0 [] []
     (by decide) (by decide),
   claim3_no_new_records_stops.2.2 (fun _ => PageOutcome.ok ⟨[], some 9⟩) 9 2 2 [] [] [1]
     ⟨[], some 9⟩ rfl rfl⟩

/-- C4: Exceptions are caught and stop the iteration while keeping what was
accumulated: an error outcome in the trustindex_scraper.py loop returns the
accumulator unchanged; a setup failure yields the empty list; an error outcome
on any Trustpilot page returns the accumulator unchanged; and an error on the
first Trustpilot page yields the empty list. -/
theorem claim4_errors_caught_keep_accumulated :
    (∀ (rest : List ClickOutcome) (fuel : Nat) (seen : List String) (acc : List Record),
      TI1.clickLoop (ClickOutcome.err :: rest) (fuel + 1) seen acc = (acc, 1, [])) ∧
    (∀ (env : TiEnv) (max_loops : Nat), env.setupFails = true →
      TI1.extract_reviews_selenium env max_loops = []) ∧
    (∀ (env : Nat → PageOutcome) (total_pages fuel current_page : Nat)
        (seen : List Value) (acc : List Record) (pages : List Nat),
      isErrOutcome (env current_page) = true →
      TP.pageLoop env total_pages (fuel + 1) current_page seen acc pages =
        (acc, pages ++ [current_page], [])) ∧
    (∀ (env : Nat → PageOutcome) (max_pages : Nat),
      isErrOutcome (env 1) = true →
      TP.extract_trustpilot_reviews env max_pages = []) := by
  refine ⟨?_, ?_, ?_, ?_⟩
  · intro rest fuel seen acc
    simp [TI1.clickLoop]
  · intro env ml hs
    simp [TI1.extract_reviews_selenium, TI1.extractCore, hs]
  · intro env total_pages fuel current_page seen acc pages herr
    cases ho : env current_page with
    | fetchErr => simp [TP.pageLoop, ho]
    | noScript => simp [TP.pageLoop, ho]
    | jsonErr => simp [TP.pageLoop, ho]
    | procErr => simp [TP.pageLoop, ho]
    | ok page => rw [ho] at herr; simp [isErrOutcome] at herr
  · intro env mp herr
    cases ho : env 1 with
    | fetchErr => simp [TP.extract_trustpilot_reviews, TP.extractCore, ho]
    | noScript => simp [TP.extract_trustpilot_reviews, TP.extractCore, ho]
    | jsonErr => simp [TP.extract_trustpilot_reviews, TP.extractCore, ho]
    | procErr => simp [TP.extract_trustpilot_reviews, TP.extractCore, ho]
    | ok page => rw [ho] at herr; simp [isErrOutcome] at herr

/-- C4 witness: concrete failing runs. -/
theorem claim4_errors_caught_keep_accumulated_witness :
    (TI1.clickLoop (ClickOutcome.err :: []) 7 ["a"]
        [[("review_id", Value.vstr "a")]] = ([[("review_id", Value.vstr "a")]], 1, [])) ∧
    (TI1.extract_reviews_selenium ⟨true, [], []⟩ 5 = []) ∧
    (TP.pageLoop (fun _ => PageOutcome.fetchErr) 9 3 2 [] [] [1] = ([], [1] ++ [2], [])) ∧
    (TP.extract_trustpilot_reviews (fun _ => PageOutcome.fetchErr) 0 = []) :=
  ⟨claim4_errors_caught_keep_accumulated.1 [] 6 ["a"] [[("review_id", Value.vstr "a")]],
   claim4_errors_caught_keep_accumulated.2.1 ⟨true, [], []⟩ 5 rfl,
   claim4_errors_caught_keep_accumulated.2.2.1 (fun _ => PageOutcome.fetchErr) 9 2 2 [] [] [1] rfl,
   claim4_errors_caught_keep_accumulated.2.2.2 (fun _ => PageOutcome.fetchErr) 0 rfl⟩

theorem charListLe_total : ∀ a b, charListLe a b = true ∨ charListLe b a = true := by
  intro a
  induction a with
  | nil => intro b; left; rfl
  | cons x xs ih =>
    intro b
    cases b with
    | nil => right; rfl
    | cons y ys =>
      by_cases hxy : x.toNat < y.toNat
      · left; simp [charListLe, hxy]
      · by_cases hyx : y.toNat < x.toNat
        · right; simp [charListLe, hxy, hyx]
        · rcases ih ys with h | h
          · left; simp [charListLe, hxy, hyx, h]
          · right; simp [charListLe, hxy, hyx, h]

theorem charListLe_trans :
    ∀ a b c, charListLe a b = true → charListLe b c = true → charListLe a c = true := by
  intro a
  induction a with
  | nil => intro b c _ _; rfl
  | cons x xs ih =>
    intro b c hab hbc
    cases b with
    | nil => simp [charListLe] at hab
    | cons y ys =>
      cases c with
      | nil => simp [charListLe] at hbc
      | cons z zs =>
        simp only [charListLe] at hab hbc ⊢
        split_ifs at hab hbc ⊢ with h1 h2 h3 h4 h5 h6 <;>
          first
          | rfl
          | omega
          | (exact ih ys zs hab hbc)

theorem pyStrLe_total (a b : String) : pyStrLe a b = true ∨ pyStrLe b a = true :=
  charListLe_total a.data b.data

theorem pyStrLe_trans {a b c : String} (h1 : pyStrLe a b = true) (h2 : pyStrLe b c = true) :
    pyStrLe a c = true :=
  charListLe_trans a.data b.data c.data h1 h2

theorem insertSorted_perm (k : String) :
    ∀ l, (insertSorted k l).Perm (k :: l) := by
  intro l
  induction l with
  | nil => exact List.Perm.refl _
  | cons x xs ih =>
    by_cases h : pyStrLe k x
    · rw [insertSorted, if_pos h]
    · rw [insertSorted, if_neg h]
      exact (ih.cons x).trans (List.Perm.swap k x xs)

theorem sortStrings_perm : ∀ l, (sortStrings l).Perm l := by
  intro l
  induction l with
  | nil => exact List.Perm.refl _
  | cons x xs ih =>
    rw [sortStrings]
    exact (insertSorted_perm x (sortStrings xs)).trans (ih.cons x)

theorem insertSorted_sorted (k : String) :
    ∀ l, l.Pairwise (fun a b => pyStrLe a b = true) →
      (insertSorted k l).Pairwise (fun a b => pyStrLe a b = true) := by
  intro l
  induction l with
  | nil => intro _; simp [insertSorted]
  | cons x xs ih =>
    intro hp
    rcases List.pairwise_cons.mp hp with ⟨hx, hxs⟩
    by_cases h : pyStrLe k x
    · rw [insertSorted, if_pos h]
      refine List.pairwise_cons.mpr ⟨?_, hp⟩
      intro y hy
      rcases List.mem_cons.mp hy with rfl | hy
      · exact h
      · exact pyStrLe_trans h (hx y hy)
    · rw [insertSorted, if_neg h]
      refine List.pairwise_cons.mpr ⟨?_, ih hxs⟩
      intro y hy
      have hy' := (insertSorted_perm k xs).mem_iff.mp hy
      rcases List.mem_cons.mp hy' with rfl | hy'
      · rcases pyStrLe_total y x with h' | h'
        · exact absurd h' h
        · exact h'
      · exact hx y hy'

theorem sortStrings_sorted :
    ∀ l, (sortStrings l).Pairwise (fun a b => pyStrLe a b = true) := by
  intro l
  induction l with
  | nil => simp [sortStrings]
  | cons x xs ih =>
    rw [sortStrings]
    exact insertSorted_sorted x (sortStrings xs) ih

/-- C5: The writers write nothing for an empty list; otherwise the header is
the sorted (by the Python string order), duplicate-free union of all keys
appearing in any record, and the rows are exactly one per record in list
order, substituting the empty string for a field a record lacks; both writers
produce the same data. -/
theorem claim5_writer_header_rows :
    (∀ reviews, write_reviews_to_csv reviews = none ↔ reviews = []) ∧
    (∀ reviews, write_reviews_to_csv reviews = write_reviews_to_excel reviews) ∧
    (∀ (reviews : List Record) (hdr : List String) (rows : List (List Value)),
      write_reviews_to_csv reviews = some (hdr, rows) →
      hdr.Pairwise (fun a b => pyStrLe a b = true) ∧ hdr.Nodup ∧
      (∀ k, k ∈ hdr ↔ ∃ r ∈ reviews, k ∈ keysOf r) ∧
      rows = reviews.map (fun r => hdr.map (fun f => getValD r f (Value.vstr "")))) := by
  refine ⟨?_, ?_, ?_⟩
  · intro reviews
    by_cases h : reviews.isEmpty <;>
      simp [write_reviews_to_csv, h, List.isEmpty_iff] <;>
      simp [List.isEmpty_iff] at h <;> simp [h]
  · intro reviews
    rfl
  · intro reviews hdr rows hw
    by_cases h : reviews.isEmpty
    · simp [write_reviews_to_csv, h] at hw
    · rw [write_reviews_to_csv, if_neg h] at hw
      have hhdr : hdr = sortStrings (collectFieldnames reviews []) := by
        have := congrArg (fun o => o.map Prod.fst) hw
        simpa using this.symm
      have hrows : rows =
          reviews.map (fun review =>
            (sortStrings (collectFieldnames reviews [])).map
              (fun f => getValD review f (Value.vstr ""))) := by
        have := congrArg (fun o => o.map Prod.snd) hw
        simpa using this.symm
      subst hhdr
      refine ⟨sortStrings_sorted _, ?_, ?_, hrows⟩
      · exact (sortStrings_perm _).nodup_iff.mpr
          (nodup_collectFieldnames reviews [] List.nodup_nil)
      · intro k
        rw [(sortStrings_perm _).mem_iff, mem_collectFieldnames]
        simp

/-- C5 witness: a concrete pair of records with differing key sets. -/
theorem claim5_writer_header_rows_witness :
    (["a", "b", "c"] : List String).Pairwise (fun a b => pyStrLe a b = true) ∧
    (["a", "b", "c"] : List String).Nodup ∧
    (∀ k, k ∈ (["a", "b", "c"] : List String) ↔
      ∃ r ∈ [[("b", Value.vstr "1")], [("a", Value.vstr "2"), ("c", Value.vnone)]],
        k ∈ keysOf r) ∧
    ([[Value.vstr "", Value.vstr "1", Value.vstr ""],
      [Value.vstr "2", Value.vstr "", Value.vnone]] : List (List Value)) =
      ([[("b", Value.vstr "1")], [("a", Value.vstr "2"), ("c", Value.vnone)]] : List Record).map
        (fun r => (["a", "b", "c"] : List String).map (fun f => getValD r f (Value.vstr ""))) :=
  claim5_writer_header_rows.2.2
    [[("b", Value.vstr "1")], [("a", Value.vstr "2"), ("c", Value.vnone)]]
    ["a", "b", "c"]
    [[Value.vstr "", Value.vstr "1", Value.vstr ""],
     [Value.vstr "2", Value.vstr "", Value.vnone]]
    (by decide)

/-- C6: extract_trustpilot_reviews requests pages in strictly increasing order
starting at page 1 with no page requested twice: the requested pages always
form the range 1..k for some k, which is strictly sorted and duplicate-free,
so no page is ever re-requested after a failure. -/
theorem claim6_pages_strictly_increasing :
    ∀ (env : Nat → PageOutcome) (max_pages : Nat),
      ∃ k, 1 ≤ k ∧ (TP.extractCore env max_pages).2.1 = List.range' 1 k ∧
        (TP.extractCore env max_pages).2.1.Pairwise (fun a b => a < b) ∧
        (TP.extractCore env max_pages).2.1.Nodup := by
  intro env mp
  obtain ⟨k, hk, hsh⟩ := TP.extractCore_pages_shape env mp
  refine ⟨k, hk, hsh, ?_, ?_⟩
  · rw [hsh]; exact List.pairwise_lt_range' 1 k
  · rw [hsh]; exact List.nodup_range' 1 k

/-- C7 counterexample: trustindex_scraper.py exports records whose date is the
raw platform string even when it parses in the expected dotted format — its
parse_review_div stores the text of the ti-date div unchanged, so a review
dated 2025.03.04 is exported as 2025.03.04, not reformatted to 2025-03-04 as
the claim requires of every exported record. -/
theorem claim7_counterexample :
    strptimeYmdDots "2025.03.04" = some (2025, 3, 4) ∧
    getValOrNone (TI1.parse_review_div
        ⟨some "id1", some "A", some "2025.03.04", some 5, some "b", []⟩) "date" =
      Value.vstr "2025.03.04" ∧
    Value.vstr "2025.03.04" ≠ Value.vstr (fmtYmd (2025, 3, 4)) := by
  refine ⟨by decide, by decide, by decide⟩

/-- C7 amended: trustindex_scraper2.py and the Trustpilot scraper normalize
date fields — a date that parses in the expected format is stored reformatted
(year-month-day for the trustindex date and the Trustpilot experience date,
with a time for the Trustpilot published date) and the raw string is stored
unchanged when parsing fails — while trustindex_scraper.py stores the raw
ti-date text unchanged in every record. -/
theorem claim7_amended_date_normalization :
    (∀ (d : ReviewDiv),
      getValOrNone (TI1.parse_review_div d) "date" = optValue d.dateText) ∧
    (∀ (d : ReviewDiv) (r : Record) (s : String),
      TI2.parse_review_div d = some r → d.dateText = some s →
      ((∃ ymd, strptimeYmdDots s = some ymd ∧
          getValOrNone r "date" = Value.vstr (fmtYmd ymd)) ∨
       (strptimeYmdDots s = none ∧ getValOrNone r "date" = Value.vstr s))) ∧
    (∀ (rj : TPReviewJson) (s : String), rj.publishedDate = some s →
      ((∃ dt, fromisoformat (pyReplace s "Z" "+00:00") = some dt ∧
          getValOrNone (TP.parse_trustpilot_review_data rj) "date_published" =
            Value.vstr (fmtDateTime dt)) ∨
       (fromisoformat (pyReplace s "Z" "+00:00") = none ∧
          getValOrNone (TP.parse_trustpilot_review_data rj) "date_published" =
            Value.vstr s))) ∧
    (∀ (rj : TPReviewJson) (s : String), rj.experiencedDate = some s →
      ((∃ dt, fromisoformat (pyReplace s "Z" "+00:00") = some dt ∧
          getValOrNone (TP.parse_trustpilot_review_data rj) "date_experience" =
            Value.vstr (fmtDate dt)) ∨
       (fromisoformat (pyReplace s "Z" "+00:00") = none ∧
          getValOrNone (TP.parse_trustpilot_review_data rj) "date_experience" =
            Value.vstr s))) := by
  refine ⟨fun d => rfl, ?_, ?_, ?_⟩
  · intro d r s hp hs
    cases hd : d.dataId with
    | none => rw [TI2.parse_review_div, hd] at hp; exact absurd hp (by simp)
    | some rid =>
      by_cases hr : rid = ""
      · simp [TI2.parse_review_div, hd, hr] at hp
      · simp only [TI2.parse_review_div, hd, hr, if_false, Option.some.injEq] at hp
        rw [← hp]
        have hlook : getValOrNone
            [("review_id", Value.vstr rid), ("author", optValue d.nameText),
             ("date",
               match d.dateText with
               | none => Value.vnone
               | some s =>
                 match strptimeYmdDots s with
                 | some ymd => Value.vstr (fmtYmd ymd)
                 | none => Value.vstr s),
             ("rating", optNatValue d.starsFilled),
             ("body",
               match d.contentText with
               | none => Value.vnone
               | some s => Value.vstr (htmlUnescape s)),
             ("source_platform", Value.vstr (sourceFromClasses d.classes))] "date" =
            (match d.dateText with
             | none => Value.vnone
             | some s =>
               match strptimeYmdDots s with
               | some ymd => Value.vstr (fmtYmd ymd)
               | none => Value.vstr s) := rfl
        rw [hlook, hs]
        cases hpd : strptimeYmdDots s with
        | none => exact Or.inr ⟨rfl, by simp [hpd]⟩
        | some ymd => exact Or.inl ⟨ymd, rfl, by simp [hpd]⟩
  · intro rj s hs
    have hlook : getValOrNone (TP.parse_trustpilot_review_data rj) "date_published" =
        (match rj.publishedDate with
         | none => Value.vnone
         | some s =>
           match fromisoformat (pyReplace s "Z" "+00:00") with
           | some dt => Value.vstr (fmtDateTime dt)
           | none => Value.vstr s) := rfl
    rw [hlook, hs]
    cases hpd : fromisoformat (pyReplace s "Z" "+00:00") with
    | none => exact Or.inr ⟨rfl, by simp [hpd]⟩
    | some dt => exact Or.inl ⟨dt, rfl, by simp [hpd]⟩
  · intro rj s hs
    have hlook : getValOrNone (TP.parse_trustpilot_review_data rj) "date_experience" =
        (match rj.experiencedDate with
         | none => Value.vnone
         | some s =>
           match fromisoformat (pyReplace s "Z" "+00:00") with
           | some dt => Value.vstr (fmtDate dt)
           | none => Value.vstr s) := rfl
    rw [hlook, hs]
    cases hpd : fromisoformat (pyReplace s "Z" "+00:00") with
    | none => exact Or.inr ⟨rfl, by simp [hpd]⟩
    | some dt => exact Or.inl ⟨dt, rfl, by simp [hpd]⟩

/-- C7 amended witness: concrete normalized and raw dates. -/
theorem claim7_amended_date_normalization_witness :
    ((∃ ymd, strptimeYmdDots "2024.05.06" = some ymd ∧
        getValOrNone [("review_id", Value.vstr "x"), ("author", Value.vnone),
          ("date", Value.vstr "2024-05-06"), ("rating", Value.vnone),
          ("body", Value.vnone), ("source_platform", Value.vstr "Unknown")] "date" =
          Value.vstr (fmtYmd ymd)) ∨
     (strptimeYmdDots "2024.05.06" = none ∧
        getValOrNone [("review_id", Value.vstr "x"), ("author", Value.vnone),
          ("date", Value.vstr "2024-05-06"), ("rating", Value.vnone),
          ("body", Value.vnone), ("source_platform", Value.vstr "Unknown")] "date" =
          Value.vstr "2024.05.06")) ∧
    ((∃ dt, fromisoformat (pyReplace "2024-01-15T12:34:56.000Z" "Z" "+00:00") = some dt ∧
        getValOrNone (TP.parse_trustpilot_review_data
          ⟨some "r1", none, none, none, none, some "2024-01-15T12:34:56.000Z",
           some "2024-01-10", none, none, none, none, none, none, none⟩)
          "date_published" = Value.vstr (fmtDateTime dt)) ∨
     (fromisoformat (pyReplace "2024-01-15T12:34:56.000Z" "Z" "+00:00") = none ∧
        getValOrNone (TP.parse_trustpilot_review_data
          ⟨some "r1", none, none, none, none, some "2024-01-15T12:34:56.000Z",
           some "2024-01-10", none, none, none, none, none, none, none⟩)
          "date_published" = Value.vstr "2024-01-15T12:34:56.000Z")) ∧
    ((∃ dt, fromisoformat (pyReplace "2024-01-10" "Z" "+00:00") = some dt ∧
        getValOrNone (TP.parse_trustpilot_review_data
          ⟨some "r1", none, none, none, none, some "2024-01-15T12:34:56.000Z",
           some "2024-01-10", none, none, none, none, none, none, none⟩)
          "date_experience" = Value.vstr (fmtDate dt)) ∨
     (fromisoformat (pyReplace "2024-01-10" "Z" "+00:00") = none ∧
        getValOrNone (TP.parse_trustpilot_review_data
          ⟨some "r1", none, none, none, none, some "2024-01-15T12:34:56.000Z",
           some "2024-01-10", none, none, none, none, none, none, none⟩)
          "date_experience" = Value.vstr "2024-01-10")) :=
  ⟨claim7_amended_date_normalization.2.1
      ⟨some "x", none, some "2024.05.06", none, none, []⟩ _ "2024.05.06" (by decide) rfl,
   claim7_amended_date_normalization.2.2.1
      ⟨some "r1", none, none, none, none, some "2024-01-15T12:34:56.000Z",
       some "2024-01-10", none, none, none, none, none, none, none⟩
      "2024-01-15T12:34:56.000Z" rfl,
   claim7_amended_date_normalization.2.2.2
      ⟨some "r1", none, none, none, none, some "2024-01-15T12:34:56.000Z",
       some "2024-01-10", none, none, none, none, none, none, none⟩
      "2024-01-10" rfl⟩

/-- C8: When the first page's payload lacks readable pagination metadata (the
totalPages lookup fails) while reviews are present, total_pages keeps its
initial value 1, so only page 1 is requested and only its reviews are
returned, for every value of max_pages — even though the code resets max_pages
to 1000 when it was 0, that variable is never read again. -/
theorem claim8_missing_pagination_single_page :
    ∀ (env : Nat → PageOutcome) (revs : List TPReviewJson) (max_pages : Nat),
      env 1 = PageOutcome.ok ⟨revs, none⟩ → revs ≠ [] →
      TP.extract_trustpilot_reviews env max_pages =
        ((TP.processReviews revs [] []).2.1).map
          (fun rv => popKey (popKey rv "id") "consumer_id") ∧
      (TP.extractCore env max_pages).2.1 = [1] := by
  intro env revs mp h1 hne
  have hcore : TP.extractCore env mp =
      ((TP.processReviews revs [] []).2.1, [1], TP.candidateIds revs) := by
    have hrev : revs.isEmpty = false := by
      cases revs with
      | nil => exact absurd rfl hne
      | cons a t => rfl
    simp [TP.extractCore, h1, hrev]
  constructor
  · rw [TP.extract_trustpilot_reviews, hcore]
  · rw [hcore]

/-- C8 witness: a concrete payload with reviews and no pagination metadata. -/
theorem claim8_missing_pagination_single_page_witness :
    TP.extract_trustpilot_reviews (fun _ => PageOutcome.ok
        ⟨[⟨some "r1", none, none, none, none, none, none, none, none, none, none,
           none, none, none⟩], none⟩) 0 =
      ((TP.processReviews
          [⟨some "r1", none, none, none, none, none, none, none, none, none, none,
            none, none, none⟩] [] []).2.1).map
        (fun rv => popKey (popKey rv "id") "consumer_id") ∧
    (TP.extractCore (fun _ => PageOutcome.ok
        ⟨[⟨some "r1", none, none, none, none, none, none, none, none, none, none,
           none, none, none⟩], none⟩) 0).2.1 = [1] :=
  claim8_missing_pagination_single_page (fun _ => PageOutcome.ok
      ⟨[⟨some "r1", none, none, none, none, none, none, none, none, none, none,
         none, none, none⟩], none⟩)
    [⟨some "r1", none, none, none, none, none, none, none, none, none, none,
      none, none, none⟩] 0 rfl (by simp)

/-- C9: Every record returned by an extraction function lacks the dedup id
keys: both Trustindex scrapers pop review_id from every record and the
Trustpilot scraper pops id and consumer_id from every record before
returning. -/
theorem claim9_id_keys_removed :
    (∀ (env : TiEnv) (max_loops : Nat) (r : Record),
      r ∈ TI1.extract_reviews_selenium env max_loops → "review_id" ∉ keysOf r) ∧
    (∀ (env : TiEnv) (max_loops : Nat) (r : Record),
      r ∈ TI2.extract_reviews_selenium env max_loops → "review_id" ∉ keysOf r) ∧
    (∀ (env : Nat → PageOutcome) (max_pages : Nat) (r : Record),
      r ∈ TP.extract_trustpilot_reviews env max_pages →
        "id" ∉ keysOf r ∧ "consumer_id" ∉ keysOf r) := by
  refine ⟨?_, ?_, ?_⟩
  · intro env ml r hr
    rcases List.mem_map.mp hr with ⟨a, _, rfl⟩
    exact not_mem_keysOf_popKey a "review_id"
  · intro env ml r hr
    rcases List.mem_map.mp hr with ⟨a, _, rfl⟩
    exact not_mem_keysOf_popKey a "review_id"
  · intro env mp r hr
    rcases List.mem_map.mp hr with ⟨a, _, rfl⟩
    refine ⟨?_, not_mem_keysOf_popKey _ "consumer_id"⟩
    intro hc
    exact not_mem_keysOf_popKey a "id" (keysOf_popKey_subset _ "consumer_id" "id" hc)

/-- C9 witness: concrete nonempty runs of all three extraction functions. -/
theorem claim9_id_keys_removed_witness :
    "review_id" ∉ keysOf (popKey (TI1.parse_review_div
        ⟨some "a", none, none, none, none, []⟩) "review_id") ∧
    "review_id" ∉ keysOf (popKey
        [("review_id", Value.vstr "a"), ("author", Value.vnone), ("date", Value.vnone),
         ("rating", Value.vnone), ("body", Value.vnone),
         ("source_platform", Value.vstr "Unknown")] "review_id") ∧
    ("id" ∉ keysOf (popKey (popKey (TP.parse_trustpilot_review_data
        ⟨some "r1", none, none, none, none, none, none, none, none, none, none,
         none, none, none⟩) "id") "consumer_id") ∧
     "consumer_id" ∉ keysOf (popKey (popKey (TP.parse_trustpilot_review_data
        ⟨some "r1", none, none, none, none, none, none, none, none, none, none,
         none, none, none⟩) "id") "consumer_id")) :=
  ⟨claim9_id_keys_removed.1 ⟨false, [⟨some "a", none, none, none, none, []⟩], []⟩ 1 _
      (by decide),
   claim9_id_keys_removed.2.1 ⟨false, [⟨some "a", none, none, none, none, []⟩], []⟩ 1 _
      (by decide),
   claim9_id_keys_removed.2.2 (fun _ => PageOutcome.ok
      ⟨[⟨some "r1", none, none, none, none, none, none, none, none, none, none,
         none, none, none⟩], some 1⟩) 1 _ (by decide)⟩

/-- C10: trustindex_scraper2.py's parse_review_div is total (the embedding
returns a value for every element, matching the per-field exception handlers
in the source), returns None exactly when the data-id attribute is missing or
empty, and otherwise yields a dict with exactly the six expected keys whose
fields degrade to None (or Unknown for the platform) when their elements are
missing. -/
theorem claim10_parse2_total :
    ∀ (d : ReviewDiv),
      (TI2.parse_review_div d = none ↔ (d.dataId = none ∨ d.dataId = some "")) ∧
      (∀ r, TI2.parse_review_div d = some r →
        keysOf r = ["review_id", "author", "date", "rating", "body", "source_platform"] ∧
        (d.nameText = none → getValOrNone r "author" = Value.vnone) ∧
        (d.dateText = none → getValOrNone r "date" = Value.vnone) ∧
        (d.starsFilled = none → getValOrNone r "rating" = Value.vnone) ∧
        (d.contentText = none → getValOrNone r "body" = Value.vnone) ∧
        ((∀ c ∈ d.classes, pyStartsWith c "source-" = false) →
          getValOrNone r "source_platform" = Value.vstr "Unknown")) := by
  intro d
  constructor
  · cases hd : d.dataId with
    | none => simp [TI2.parse_review_div, hd]
    | some rid =>
      by_cases hr : rid = ""
      · subst hr; simp [TI2.parse_review_div, hd]
      · simp [TI2.parse_review_div, hd, hr]
  · intro r hp
    cases hd : d.dataId with
    | none => rw [TI2.parse_review_div, hd] at hp; exact absurd hp (by simp)
    | some rid =>
      by_cases hr : rid = ""
      · simp [TI2.parse_review_div, hd, hr] at hp
      · simp only [TI2.parse_review_div, hd, hr, if_false, Option.some.injEq] at hp
        rw [← hp]
        refine ⟨rfl, ?_, ?_, ?_, ?_, ?_⟩
        · intro h
          change optValue d.nameText = Value.vnone
          rw [h]
          rfl
        · intro h
          change (match d.dateText with
            | none => Value.vnone
            | some s =>
              match strptimeYmdDots s with
              | some ymd => Value.vstr (fmtYmd ymd)
              | none => Value.vstr s) = Value.vnone
          rw [h]
        · intro h
          change optNatValue d.starsFilled = Value.vnone
          rw [h]
          rfl
        · intro h
          change (match d.contentText with
            | none => Value.vnone
            | some s => Value.vstr (htmlUnescape s)) = Value.vnone
          rw [h]
        · intro h
          change Value.vstr (sourceFromClasses d.classes) = Value.vstr "Unknown"
          rw [sourceFromClasses, List.find?_eq_none.mpr (fun c hc => by simp [h c hc])]

/-- C10 witness: a concrete element with a non-empty data-id and all other
pieces missing. -/
theorem claim10_parse2_total_witness :
    (TI2.parse_review_div ⟨some "x", none, none, none, none, []⟩ = none ↔
      ((⟨some "x", none, none, none, none, []⟩ : ReviewDiv).dataId = none ∨
       (⟨some "x", none, none, none, none, []⟩ : ReviewDiv).dataId = some "")) ∧
    (keysOf [("review_id", Value.vstr "x"), ("author", Value.vnone),
        ("date", Value.vnone), ("rating", Value.vnone), ("body", Value.vnone),
        ("source_platform", Value.vstr "Unknown")] =
      ["review_id", "author", "date", "rating", "body", "source_platform"]) :=
  ⟨(claim10_parse2_total ⟨some "x", none, none, none, none, []⟩).1,
   ((claim10_parse2_total ⟨some "x", none, none, none, none, []⟩).2
      [("review_id", Value.vstr "x"), ("author", Value.vnone),
       ("date", Value.vnone), ("rating", Value.vnone), ("body", Value.vnone),
       ("source_platform", Value.vstr "Unknown")] (by decide)).1⟩
